import Mathlib

/-
  Verification development for the bamnostic utility module
  (bamnostic/utils.py): BGZF virtual-offset codec, LRU cache,
  CIGAR parsing and CIGAR/MD reference reconstruction.

  The Python code is shallowly embedded: Python ints are modelled by
  Int (or Nat where the code guarantees non-negative values), Python
  exceptions by an explicit error type, and the regex scans of
  parse_cigar and md_changes by recursive tokenizers that mirror the
  left-to-right matching (with skipping of non-matching characters)
  performed by re.finditer.
-/

namespace Bamnostic

/-- Python exceptions raised by the code under study. -/
inductive PyErr : Type
  | valueError (msg : String)
  | keyError (key : String)
  | unboundLocal (name : String)
  deriving DecidableEq

/-! ### Virtual offset codec (make_virtual_offset / split_virtual_offset) -/

/-- Embedding of make_virtual_offset. Inputs are Int (Python ints may be
negative, and the doctests exercise negative rejection); after the range
guards both components are non-negative, so the shift/or payload is
computed on the Nat values, which agrees with the Python semantics of
the operators on non-negative ints. -/
def make_virtual_offset (block_start_offset within_block_offset : Int) :
    Except PyErr Int :=
  if within_block_offset < 0 ∨ 65536 ≤ within_block_offset then
    .error (.valueError "Require 0 <= within_block_offset < 2**16")
  else if block_start_offset < 0 ∨ 281474976710656 ≤ block_start_offset then
    .error (.valueError "Require 0 <= block_start_offset < 2**48")
  else
    .ok (Int.ofNat ((block_start_offset.toNat <<< 16) ||| within_block_offset.toNat))

/-- Embedding of split_virtual_offset; the function is only applied to
non-negative virtual offsets, so it is modelled on Nat. -/
def split_virtual_offset (virtual_offset : Nat) : Nat × Nat :=
  let coffset := virtual_offset >>> 16
  let uoffset := virtual_offset ^^^ (coffset <<< 16)
  (coffset, uoffset)

/-! ### LruDict -/

/-- State of an LruDict: the ordered entry list of the underlying
OrderedDict (front = oldest, back = most recently touched) plus the
max_cache capacity. -/
structure LruDict (K V : Type) : Type where
  entries : List (K × V)
  max_cache : Nat
  deriving DecidableEq

/-- Value of the first (and in practice only) entry with the given key,
mirroring OrderedDict lookup. -/
def lookupVal {K V : Type} [DecidableEq K] : List (K × V) → K → Option V
  | [], _ => none
  | (k, v) :: rest, key => if k = key then some v else lookupVal rest key

/-- Remove the entry with the given key, keeping the order of the rest. -/
def removeKey {K V : Type} [DecidableEq K] : List (K × V) → K → List (K × V)
  | [], _ => []
  | (k, v) :: rest, key =>
    if k = key then removeKey rest key else (k, v) :: removeKey rest key

/-- OrderedDict.__setitem__: overwrite in place if the key is present
(keeping its position), otherwise append at the end. -/
def setAssoc {K V : Type} [DecidableEq K] : List (K × V) → K → V → List (K × V)
  | [], key, value => [(key, value)]
  | (k, v) :: rest, key, value =>
    if k = key then (key, value) :: rest else (k, v) :: setAssoc rest key value

/-- LruDict.cull: when max_cache is non-zero (truthy), pop
max(0, len - max_cache) items from the front (popitem last=False). -/
def LruDict.cull {K V : Type} (d : LruDict K V) : LruDict K V :=
  if d.max_cache ≠ 0 then
    { d with entries := d.entries.drop (d.entries.length - d.max_cache) }
  else d

/-- LruDict.__init__ starting from an empty dict: record max_cache and
cull. The Python default for the max_cache keyword is 128. -/
def LruDict.init (K V : Type) (max_cache : Nat) : LruDict K V :=
  LruDict.cull { entries := [], max_cache := max_cache }

/-- LruDict() with the capacity keyword left unset: max_cache defaults
to 128. -/
def LruDict.initDefault (K V : Type) : LruDict K V := LruDict.init K V 128

/-- LruDict.__setitem__: OrderedDict write followed by cull. -/
def LruDict.setitem {K V : Type} [DecidableEq K]
    (d : LruDict K V) (key : K) (value : V) : LruDict K V :=
  LruDict.cull { d with entries := setAssoc d.entries key value }

/-- LruDict.__getitem__: on a hit, return the value and move the key to
the most-recently-used end (both version branches of the Python code
implement move-to-end); on a miss the KeyError is swallowed and None is
returned, leaving the dict unchanged. -/
def LruDict.getitem {K V : Type} [DecidableEq K]
    (d : LruDict K V) (key : K) : Option V × LruDict K V :=
  match lookupVal d.entries key with
  | some value =>
    (some value, { d with entries := removeKey d.entries key ++ [(key, value)] })
  | none => (none, d)

/-- Keys currently stored, in order. -/
def LruDict.keys {K V : Type} (d : LruDict K V) : List K :=
  d.entries.map Prod.fst

/-- Membership test (key in dict). -/
def LruDict.hasKey {K V : Type} [DecidableEq K] (d : LruDict K V) (key : K) : Bool :=
  (lookupVal d.entries key).isSome

/-- Insert each key of the list in turn (value 0), left to right. -/
def putAll (d : LruDict Nat Nat) : List Nat → LruDict Nat Nat
  | [] => d
  | k :: ks => putAll (d.setitem k 0) ks

/-! ### CIGAR parsing -/

/-- Python regex word character over the ASCII inputs in play:
letters, digits and underscore. -/
def isWordChar (c : Char) : Bool := c.isAlphanum || c = '_'

/-- Numeric value of a digit run (int() of the matched digits). -/
def digitsToNat (ds : List Char) : Nat :=
  ds.foldl (fun acc c => acc * 10 + (c.toNat - 48)) 0

/-- The token scan performed by re.finditer with the parse_cigar
pattern: one group of greedy digits followed by one word character.
Positions where no match starts are skipped. Because digits are word
characters, a maximal digit run not followed by a word character still
matches when it has at least two digits, by backtracking one digit into
the word-character slot. runRev holds the digits of the pending run,
most recent first. -/
def scanCigarRun (runRev : List Char) : List Char → List (Nat × Char)
  | [] =>
    match runRev with
    | last :: d2 :: ds => [(digitsToNat (d2 :: ds).reverse, last)]
    | _ => []
  | c :: rest =>
    if c.isDigit then
      scanCigarRun (c :: runRev) rest
    else
      match runRev with
      | [] => scanCigarRun [] rest
      | last :: ds =>
        if isWordChar c then
          (digitsToNat runRev.reverse, c) :: scanCigarRun [] rest
        else
          match ds with
          | d2 :: ds2 =>
            (digitsToNat (d2 :: ds2).reverse, last) :: scanCigarRun [] rest
          | [] => scanCigarRun [] rest

/-- Token list of the parse_cigar regex scan over the input. -/
def scanCigar (l : List Char) : List (Nat × Char) := scanCigarRun [] l

/-- The _CIGAR_OPS table: op letter to (name, id). -/
def cigarOps (c : Char) : Option (String × Nat) :=
  if c = 'M' then some ("BAM_CMATCH", 0)
  else if c = 'I' then some ("BAM_CINS", 1)
  else if c = 'D' then some ("BAM_CDEL", 2)
  else if c = 'N' then some ("BAM_CREF_SKIP", 3)
  else if c = 'S' then some ("BAM_CSOFT_CLIP", 4)
  else if c = 'H' then some ("BAM_CHARD_CLIP", 5)
  else if c = 'P' then some ("BAM_CPAD", 6)
  else if c = '=' then some ("BAM_CEQUAL", 7)
  else if c = 'X' then some ("BAM_CDIFF", 8)
  else if c = 'B' then some ("BAM_CBACK", 9)
  else none

/-- Body of the parse_cigar loop over the scanned tokens: each token's
op letter is looked up in _CIGAR_OPS (a KeyError escapes on an
unrecognized letter) and the ((name, id), count) pair is appended. -/
def parseCigarTokens : List (Nat × Char) → Except PyErr (List ((String × Nat) × Nat))
  | [] => .ok []
  | (n, c) :: rest =>
    match cigarOps c with
    | none => .error (.keyError (String.mk [c]))
    | some op =>
      match parseCigarTokens rest with
      | .error e => .error e
      | .ok l => .ok ((op, n) :: l)

/-- Embedding of parse_cigar. -/
def parse_cigar (s : List Char) : Except PyErr (List ((String × Nat) × Nat)) :=
  parseCigarTokens (scanCigar s)

/-! ### cigar_changes -/

/-- A cigar operation value as it reaches the cigar_changes loop: either
a plain int id or the (name, id) tuple produced by parse_cigar. -/
inductive PyOp : Type
  | int (n : Nat)
  | tup (name : String) (id : Nat)
  deriving DecidableEq

/-- The loop body of cigar_changes. Branches follow the source: ids
0, 7, 8 append a slice of seq and advance the cursor; 1 and 4 advance
only; id 3 reads the never-assigned local tmp_ref_seq, which raises
UnboundLocalError; id 5 is a no-op; everything else (including ids
2, 6, 9 and every (name, id) tuple) raises ValueError. -/
def cigarChangesLoop (seq : List Char) :
    List (PyOp × Nat) → Nat → List Char → Except PyErr (List Char)
  | [], _, acc => .ok acc
  | (op, n_ops) :: rest, pos, acc =>
    if op = .int 0 ∨ op = .int 7 ∨ op = .int 8 then
      cigarChangesLoop seq rest (pos + n_ops) (acc ++ (seq.drop pos).take n_ops)
    else if op = .int 1 ∨ op = .int 4 then
      cigarChangesLoop seq rest (pos + n_ops) acc
    else if op = .int 3 then
      .error (.unboundLocal "tmp_ref_seq")
    else if op = .int 5 then
      cigarChangesLoop seq rest pos acc
    else
      .error (.valueError "Invalid CIGAR string")

/-- The cigar argument of cigar_changes: a CIGAR string or an already
parsed operation list. -/
inductive CigarArg : Type
  | str (s : List Char)
  | ops (l : List (PyOp × Nat))

/-- Lift a parse_cigar result entry to the PyOp view of the loop. -/
def toPyOp (p : (String × Nat) × Nat) : PyOp × Nat :=
  (PyOp.tup p.1.1 p.1.2, p.2)

/-- Embedding of cigar_changes: a string argument goes through
parse_cigar first (its exception escaping), then the loop runs. -/
def cigar_changes (seq : List Char) : CigarArg → Except PyErr (List Char)
  | .str s =>
    match parse_cigar s with
    | .error e => .error e
    | .ok l => cigarChangesLoop seq (l.map toPyOp) 0 []
  | .ops l => cigarChangesLoop seq l 0 []

/-! ### md_changes -/

/-- One token of the md_changes regex scan. The deletion group uses the
lazy pattern caret-then-word-characters-lazily, which in this
alternation always captures exactly one word character after the caret. -/
inductive MdToken : Type
  | matchRun (n : Nat)
  | del (base : Char)
  | sub (base : Char)
  deriving DecidableEq

/-- The token scan performed by re.finditer with the md_changes
pattern: a greedy digit run, or a caret followed lazily by word
characters (hence exactly one), or a single word character; characters
matching none of the three are skipped. run carries the value of the
pending digit run, if one is open. -/
def mdTokenizeRun (run : Option Nat) : List Char → List MdToken
  | [] =>
    match run with
    | some n => [MdToken.matchRun n]
    | none => []
  | [c] =>
    if c.isDigit then
      [MdToken.matchRun ((run.getD 0) * 10 + (c.toNat - 48))]
    else
      let pre : List MdToken :=
        match run with
        | some n => [MdToken.matchRun n]
        | none => []
      if c = '^' then pre
      else if isWordChar c then pre ++ [MdToken.sub c]
      else pre
  | c :: d :: rest =>
    if c.isDigit then
      mdTokenizeRun (some ((run.getD 0) * 10 + (c.toNat - 48))) (d :: rest)
    else
      let pre : List MdToken :=
        match run with
        | some n => [MdToken.matchRun n]
        | none => []
      if c = '^' then
        if isWordChar d then pre ++ MdToken.del d :: mdTokenizeRun none rest
        else pre ++ mdTokenizeRun none (d :: rest)
      else if isWordChar c then
        pre ++ MdToken.sub c :: mdTokenizeRun none (d :: rest)
      else
        pre ++ mdTokenizeRun none (d :: rest)

/-- Token list of the md_changes regex scan over the tag. -/
def mdTokenize (l : List Char) : List MdToken := mdTokenizeRun none l

/-- The loop body of md_changes over the scanned tokens: a match run
appends a slice of seq and advances the cursor; a deletion appends the
captured base without advancing; a substitution appends the base and
advances by one. -/
def mdChangesLoop (seq : List Char) :
    List MdToken → Nat → List Char → List Char
  | [], _, acc => acc
  | MdToken.matchRun n :: rest, pos, acc =>
    mdChangesLoop seq rest (pos + n) (acc ++ (seq.drop pos).take n)
  | MdToken.del b :: rest, pos, acc =>
    mdChangesLoop seq rest pos (acc ++ [b])
  | MdToken.sub b :: rest, pos, acc =>
    mdChangesLoop seq rest (pos + 1) (acc ++ [b])

/-- Embedding of md_changes. -/
def md_changes (seq md_tag : List Char) : List Char :=
  mdChangesLoop seq (mdTokenize md_tag) 0 []

/-! ## Helper lemmas -/

/-- In range, make_virtual_offset returns the packed value. -/
theorem make_virtual_offset_ok (b w : Nat)
    (hb : b < 281474976710656) (hw : w < 65536) :
    make_virtual_offset ((b : Int)) ((w : Int)) =
      Except.ok (Int.ofNat ((b <<< 16) ||| w)) := by
  unfold make_virtual_offset
  rw [if_neg (by omega), if_neg (by omega)]
  simp

/-- The packed offset is the expected positional value. -/
theorem pack_eq_mul_add (b w : Nat) (hw : w < 65536) :
    (b <<< 16) ||| w = b * 65536 + w := by
  have h1 : b <<< 16 = 2 ^ 16 * b := by rw [Nat.shiftLeft_eq]; ring
  have h2 := Nat.mul_add_lt_is_or (i := 16) (by omega : w < 2 ^ 16) b
  rw [h1, ← h2]
  norm_num
  ring

/-- Shifting the packed offset right recovers the block start. -/
theorem pack_shiftRight (b w : Nat) (hw : w < 65536) :
    ((b <<< 16) ||| w) >>> 16 = b := by
  apply Nat.eq_of_testBit_eq
  intro i
  have hw' : w.testBit (16 + i) = false := by
    apply Nat.testBit_lt_two_pow
    calc w < 65536 := hw
    _ = 2 ^ 16 := by norm_num
    _ ≤ 2 ^ (16 + i) := Nat.pow_le_pow_right (by norm_num) (by omega)
  rw [Nat.testBit_shiftRight, Nat.testBit_lor, Nat.testBit_shiftLeft, hw']
  simp

/-- Xoring the shifted block start out of the packed offset recovers the
within-block component. -/
theorem pack_xor (b w : Nat) (hw : w < 65536) :
    ((b <<< 16) ||| w) ^^^ (b <<< 16) = w := by
  apply Nat.eq_of_testBit_eq
  intro i
  rcases Nat.lt_or_ge i 16 with h | h
  · have hb : (b <<< 16).testBit i = false := by
      rw [Nat.testBit_shiftLeft]
      simp
      omega
    simp [Nat.testBit_xor, Nat.testBit_lor, hb]
  · have hw' : w.testBit i = false := by
      apply Nat.testBit_lt_two_pow
      calc w < 65536 := hw
      _ = 2 ^ 16 := by norm_num
      _ ≤ 2 ^ i := Nat.pow_le_pow_right (by norm_num) h
    simp [Nat.testBit_xor, Nat.testBit_lor, hw']

/-! ## Claims -/

/-- C3: for every block_start in [0, 2^48) and within_block in
[0, 2^16), split_virtual_offset recovers the pair from the offset
make_virtual_offset returns. -/
theorem c3_virtual_offset_roundtrip (b w : Nat)
    (hb : b < 281474976710656) (hw : w < 65536) :
    ∃ v : Nat,
      make_virtual_offset ((b : Int)) ((w : Int)) = Except.ok ((v : Int)) ∧
      split_virtual_offset v = (b, w) := by
  refine ⟨(b <<< 16) ||| w, make_virtual_offset_ok b w hb hw, ?_⟩
  show (((b <<< 16) ||| w) >>> 16,
    ((b <<< 16) ||| w) ^^^ ((((b <<< 16) ||| w) >>> 16) <<< 16)) = (b, w)
  rw [pack_shiftRight b w hw, pack_xor b w hw]

theorem c3_witness :
    ∃ v : Nat,
      make_virtual_offset ((100000 : Nat) : Int) ((10 : Nat) : Int) = Except.ok ((v : Int)) ∧
      split_virtual_offset v = (100000, 10) :=
  c3_virtual_offset_roundtrip 100000 10 (by norm_num) (by norm_num)

/-- C7: make_virtual_offset fails exactly when a component is out of its
bit-width domain, and behaves as stated at the four boundary inputs. -/
theorem c7_make_virtual_offset_range :
    (∀ b w : Int,
      (∃ v, make_virtual_offset b w = Except.ok v) ↔
        (0 ≤ w ∧ w < 65536 ∧ 0 ≤ b ∧ b < 281474976710656)) ∧
    (∃ e, make_virtual_offset 0 65536 = Except.error e) ∧
    make_virtual_offset 0 65535 = Except.ok 65535 ∧
    (∃ e, make_virtual_offset 281474976710656 0 = Except.error e) ∧
    (∃ v, make_virtual_offset 281474976710655 0 = Except.ok v) := by
  refine ⟨?_, ⟨_, rfl⟩, rfl, ⟨_, rfl⟩, ⟨_, rfl⟩⟩
  intro b w
  unfold make_virtual_offset
  rcases Decidable.em (w < 0 ∨ 65536 ≤ w) with h1 | h1
  · rw [if_pos h1]
    simp
    omega
  · rw [if_neg h1]
    rcases Decidable.em (b < 0 ∨ 281474976710656 ≤ b) with h2 | h2
    · rw [if_pos h2]
      simp
      omega
    · rw [if_neg h2]
      simp
      omega

/-- C9: over the valid component domains, packed virtual offsets compare
as plain integers exactly as the (block_start, within_block) pairs
compare lexicographically. -/
theorem c9_virtual_offset_order (b1 w1 b2 w2 : Nat)
    (hb1 : b1 < 281474976710656) (hw1 : w1 < 65536)
    (hb2 : b2 < 281474976710656) (hw2 : w2 < 65536) :
    ∃ v1 v2 : Nat,
      make_virtual_offset ((b1 : Nat) : Int) ((w1 : Nat) : Int) = Except.ok ((v1 : Nat) : Int) ∧
      make_virtual_offset ((b2 : Nat) : Int) ((w2 : Nat) : Int) = Except.ok ((v2 : Nat) : Int) ∧
      (v1 < v2 ↔ (b1 < b2 ∨ (b1 = b2 ∧ w1 < w2))) := by
  refine ⟨(b1 <<< 16) ||| w1, (b2 <<< 16) ||| w2,
    make_virtual_offset_ok b1 w1 hb1 hw1, make_virtual_offset_ok b2 w2 hb2 hw2, ?_⟩
  rw [pack_eq_mul_add b1 w1 hw1, pack_eq_mul_add b2 w2 hw2]
  omega

/-- C4: with capacity 2 and distinct keys, put a; put b; get a; put c
leaves exactly the entries for a and c (b, least recently touched at the
overflow, is evicted). -/
theorem c4_lru_eviction (a b c va vb vc : Nat)
    (hab : a ≠ b) (hac : a ≠ c) (hbc : b ≠ c) :
    (((((LruDict.init Nat Nat 2).setitem a va).setitem b vb).getitem a).2.setitem c vc).entries
      = [(a, va), (c, vc)] := by
  simp [LruDict.init, LruDict.setitem, LruDict.getitem, LruDict.cull,
    setAssoc, removeKey, lookupVal,
    hab, hac, hbc, Ne.symm hab, Ne.symm hac, Ne.symm hbc]

theorem c4_witness :
    (((((LruDict.init Nat Nat 2).setitem 1 10).setitem 2 20).getitem 1).2.setitem 3 30).entries
      = [(1, 10), (3, 30)] :=
  c4_lru_eviction 1 2 3 10 20 30 (by decide) (by decide) (by decide)

/-- setitem and cull do not change max_cache. -/
theorem setitem_max_cache {K V : Type} [DecidableEq K]
    (d : LruDict K V) (k : K) (v : V) :
    (d.setitem k v).max_cache = d.max_cache := by
  simp only [LruDict.setitem, LruDict.cull]
  split <;> rfl

/-- Lookup after an OrderedDict write. -/
theorem lookupVal_setAssoc {K V : Type} [DecidableEq K]
    (l : List (K × V)) (key key' : K) (value : V) :
    lookupVal (setAssoc l key value) key' =
      if key = key' then some value else lookupVal l key' := by
  induction l with
  | nil =>
    by_cases h : key = key' <;> simp [setAssoc, lookupVal, h]
  | cons hd tl ih =>
    obtain ⟨k0, v0⟩ := hd
    by_cases h0 : k0 = key
    · subst h0
      by_cases h : k0 = key' <;> simp [setAssoc, lookupVal, h]
    · by_cases h : k0 = key'
      · subst h
        simp [setAssoc, lookupVal, h0, Ne.symm h0]
      · simp [setAssoc, lookupVal, h0, h, ih]

/-- With capacity zero the dict is unbounded: a setitem leaves every
inserted key present. -/
theorem putAll_hasKey (ks : List Nat) :
    ∀ d : LruDict Nat Nat, d.max_cache = 0 → ∀ k : Nat,
      (k ∈ ks ∨ d.hasKey k = true) → (putAll d ks).hasKey k = true := by
  induction ks with
  | nil =>
    intro d h0 k hk
    rcases hk with hk | hk
    · simp at hk
    · simpa [putAll] using hk
  | cons k0 ks ih =>
    intro d h0 k hk
    show (putAll (d.setitem k0 0) ks).hasKey k = true
    apply ih (d.setitem k0 0) (by rw [setitem_max_cache]; exact h0) k
    have hset : (d.setitem k0 0).hasKey k = true ∨ k ∈ ks := by
      have hentries : (d.setitem k0 0).entries = setAssoc d.entries k0 0 := by
        simp [LruDict.setitem, LruDict.cull, h0]
      rcases hk with hk | hk
      · rcases List.mem_cons.mp hk with h | h
        · subst h
          left
          simp [LruDict.hasKey, hentries, lookupVal_setAssoc]
        · right; exact h
      · left
        simp only [LruDict.hasKey, hentries, lookupVal_setAssoc]
        by_cases h : k0 = k
        · simp [h]
        · simp [h]
          simpa [LruDict.hasKey] using hk
    tauto

set_option maxRecDepth 40000 in
/-- C5 counterexample: the claim fails for a cache constructed without a
capacity: the default max_cache is 128, so after inserting the 129
distinct keys 0..128 the first key has been evicted. -/
theorem c5_counterexample :
    (List.range 129).Nodup ∧
      (putAll (LruDict.initDefault Nat Nat) (List.range 129)).hasKey 0 = false ∧
      (putAll (LruDict.initDefault Nat Nat) (List.range 129)).entries.length = 128 := by
  refine ⟨by decide, by decide, by decide⟩

/-- C5 (amended): a cache constructed with capacity 0 is unbounded and
never evicts: after inserting any list of distinct keys, every one of
them is still present. A cache constructed without a capacity instead
gets the default capacity 128 and does evict. -/
theorem c5_capacity_zero_unbounded (ks : List Nat) (hnd : ks.Nodup)
    (k : Nat) (hk : k ∈ ks) :
    (putAll (LruDict.init Nat Nat 0) ks).hasKey k = true := by
  apply putAll_hasKey ks (LruDict.init Nat Nat 0) (by rfl) k (Or.inl hk)

theorem c5_witness :
    (putAll (LruDict.init Nat Nat 0) [4, 7, 9]).hasKey 7 = true :=
  c5_capacity_zero_unbounded [4, 7, 9] (by decide) 7 (by decide)

/-- C8: with a finite non-zero capacity, after any put the number of
stored entries is at most the capacity. -/
theorem c8_lru_capacity (st : LruDict Nat Nat) (k v : Nat)
    (h : 0 < st.max_cache) :
    ((st.setitem k v).entries).length ≤ st.max_cache := by
  have hmc : st.max_cache ≠ 0 := by omega
  simp [LruDict.setitem, LruDict.cull, hmc]
  omega

theorem c8_witness :
    (((LruDict.init Nat Nat 2).setitem 5 7).entries).length ≤
      (LruDict.init Nat Nat 2).max_cache :=
  c8_lru_capacity (LruDict.init Nat Nat 2) 5 7 (by decide)

theorem c9_witness :
    ∃ v1 v2 : Nat,
      make_virtual_offset ((5 : Nat) : Int) ((70 : Nat) : Int) = Except.ok ((v1 : Nat) : Int) ∧
      make_virtual_offset ((5 : Nat) : Int) ((71 : Nat) : Int) = Except.ok ((v2 : Nat) : Int) ∧
      (v1 < v2 ↔ (5 < 5 ∨ (5 = 5 ∧ 70 < 71))) :=
  c9_virtual_offset_order 5 70 5 71 (by norm_num) (by norm_num) (by norm_num) (by norm_num)

/-- C6 counterexample: on input "M" the digit run of the token is empty,
yet the parser does not fail: re.finditer simply finds no match and the
result is the empty operation list. -/
theorem c6_counterexample : parse_cigar ['M'] = Except.ok [] := rfl

/-- C6 (amended): the parser silently skips characters that take part in
no digits-then-word-character token (in particular any input without a
digit parses to the empty list); it fails only when a matched token's
trailing character is not one of the ten recognized codes, as on "10Q"
where the lookup of Q raises. -/
theorem c6_cigar_parse_leniency :
    (∀ s : List Char, (∀ c ∈ s, c.isDigit = false) → parse_cigar s = Except.ok []) ∧
    parse_cigar ['1', '0', 'Q'] = Except.error (PyErr.keyError "Q") := by
  constructor
  · intro s hs
    have h : scanCigarRun [] s = [] := by
      induction s with
      | nil => rfl
      | cons c rest ih =>
        have hc : c.isDigit = false := hs c (by simp)
        simp only [scanCigarRun, hc, Bool.false_eq_true, if_false]
        exact ih (fun c' hc' => hs c' (List.mem_cons_of_mem _ hc'))
    simp [parse_cigar, scanCigar, h, parseCigarTokens]
  · rfl

theorem c6_witness : parse_cigar ['M', '@'] = Except.ok [] :=
  c6_cigar_parse_leniency.1 ['M', '@'] (by decide)

/-- C10: whenever parse_cigar produces a non-empty operation list, every
operation is a ((name, id), count) pair whose op is a tuple, so in
cigar_changes no integer branch matches and the loop raises ValueError,
both when cigar_changes is handed the CIGAR string and when it is handed
the parsed list. -/
theorem c10_cigar_changes_type_mismatch (seq s : List Char)
    (l : List ((String × Nat) × Nat))
    (hp : parse_cigar s = Except.ok l) (hne : l ≠ []) :
    cigar_changes seq (CigarArg.str s) =
      Except.error (PyErr.valueError "Invalid CIGAR string") ∧
    cigar_changes seq (CigarArg.ops (l.map toPyOp)) =
      Except.error (PyErr.valueError "Invalid CIGAR string") := by
  obtain ⟨p, rest, rfl⟩ : ∃ p rest, l = p :: rest := by
    cases l with
    | nil => exact absurd rfl hne
    | cons p rest => exact ⟨p, rest, rfl⟩
  have hloop : cigarChangesLoop seq (toPyOp p :: rest.map toPyOp) 0 [] =
      Except.error (PyErr.valueError "Invalid CIGAR string") := by
    obtain ⟨⟨nm, id0⟩, n⟩ := p
    simp [toPyOp, cigarChangesLoop]
  exact ⟨by simp [cigar_changes, hp, hloop], by simp [cigar_changes, hloop]⟩

theorem c10_witness :
    cigar_changes ['A', 'C', 'G', 'T'] (CigarArg.str ['1', '0', 'M']) =
      Except.error (PyErr.valueError "Invalid CIGAR string") ∧
    cigar_changes ['A', 'C', 'G', 'T']
        (CigarArg.ops ([(("BAM_CMATCH", 0), 10)].map toPyOp)) =
      Except.error (PyErr.valueError "Invalid CIGAR string") :=
  c10_cigar_changes_type_mismatch ['A', 'C', 'G', 'T'] ['1', '0', 'M']
    [(("BAM_CMATCH", 0), 10)] rfl (by simp)

/-- C1 (code behavior at the failing inputs): with integer operation
ids, a Deletion (id 2) operation raises ValueError instead of appending
placeholder bases, a Skip (id 3) operation reads the never-assigned
local tmp_ref_seq, and Pad (6) and Back (9) also raise ValueError, so
reconstruction does not succeed on all ten recognized kinds. -/
theorem c1_cigar_changes_crashes :
    cigar_changes ['A', 'C', 'G', 'T'] (CigarArg.ops [(PyOp.int 2, 2)]) =
      Except.error (PyErr.valueError "Invalid CIGAR string") ∧
    cigar_changes ['A', 'C', 'G', 'T'] (CigarArg.ops [(PyOp.int 3, 2)]) =
      Except.error (PyErr.unboundLocal "tmp_ref_seq") ∧
    cigar_changes ['A', 'C', 'G', 'T'] (CigarArg.ops [(PyOp.int 6, 1)]) =
      Except.error (PyErr.valueError "Invalid CIGAR string") ∧
    cigar_changes ['A', 'C', 'G', 'T'] (CigarArg.ops [(PyOp.int 9, 1)]) =
      Except.error (PyErr.valueError "Invalid CIGAR string") :=
  ⟨rfl, rfl, rfl, rfl⟩

/-- C2 (code behavior at the failing input): the lazy deletion group of
the md_changes regex captures only the first deleted base, the second
parses as a substitution that wrongly advances the query cursor, so for
sequence ACGT and tag 2^NN2 the code returns ACNNT, not the ACNNGT the
claim states. -/
theorem c2_md_changes_deletion_split :
    mdTokenize ['2', '^', 'N', 'N', '2'] =
      [MdToken.matchRun 2, MdToken.del 'N', MdToken.sub 'N', MdToken.matchRun 2] ∧
    md_changes ['A', 'C', 'G', 'T'] ['2', '^', 'N', 'N', '2'] =
      ['A', 'C', 'N', 'N', 'T'] ∧
    md_changes ['A', 'C', 'G', 'T'] ['2', '^', 'N', 'N', '2'] ≠
      ['A', 'C', 'N', 'N', 'G', 'T'] :=
  ⟨rfl, rfl, by decide⟩

end Bamnostic
